import Mathlib

/-!
Verification development for the LectureBuddies chatbot (src/ChatBot.py).

Python strings are embedded as lists of characters (`PyStr`); machine-level
concerns (bytes) are `Nat` values below 256.  External collaborators (the
file system read, PyPDF2, python-docx, pytesseract OCR, the HTTP endpoint)
are modelled as explicit inputs: an `ExtLibs` record of pure parsing
functions and `Except`-valued read/parse outcomes, so that every failure
path of the source is represented.  The regular expressions and string
methods used by the source (re.sub of whitespace runs, the character
allow-list, str.strip, str.lower, str.replace, substring tests, UTF-8 and
Latin-1 decoding) are implemented directly below, on the character ranges
the program exercises (ASCII and Latin-1; the word-character table models
Python's Unicode tables on that range).
-/

/-- Python strings, embedded as lists of characters. -/
abbrev PyStr := List Char

/-- Coerce a Lean string literal to the embedded representation. -/
def pyOf (s : String) : PyStr := s.data

/-- Python's whitespace class (re `\s` / str.isspace), covering the ASCII
controls, the separator controls 0x1C-0x1F, NEL, NBSP and the Unicode
space separators. -/
def pyIsSpace (c : Char) : Bool :=
  decide (c.toNat ∈ ([0x20, 0x09, 0x0A, 0x0D, 0x0B, 0x0C, 0x1C, 0x1D, 0x1E, 0x1F,
    0x85, 0xA0, 0x1680, 0x2028, 0x2029, 0x202F, 0x205F, 0x3000] : List Nat))
  || decide (0x2000 ≤ c.toNat ∧ c.toNat ≤ 0x200A)

/-- Python's word-character class (re `\w`): ASCII alphanumerics, the
underscore, and the alphanumeric characters of the Latin-1 supplement
(ª µ º, the superscript and fraction digits, and the Latin-1 letters
excluding the multiplication and division signs). -/
def pyIsWord (c : Char) : Bool :=
  c.isAlphanum
  || decide (c = '_')
  || decide (c.toNat ∈ ([0xAA, 0xB5, 0xBA, 0xB2, 0xB3, 0xB9, 0xBC, 0xBD, 0xBE] : List Nat))
  || (decide (0xC0 ≤ c.toNat) && decide (c.toNat ≤ 0xFF)
      && !decide (c.toNat = 0xD7) && !decide (c.toNat = 0xF7))

/-- The punctuation kept by the cleaning regex of `_clean_text`:
`. , ! ? ; : - ( ) [ ]` and the two curly braces. -/
def keptPunct (c : Char) : Bool :=
  decide (c ∈ (['.', ',', '!', '?', ';', ':', '-', '(', ')', '[', ']',
    Char.ofNat 123, Char.ofNat 125] : List Char))

/-- The full allow-list of the second re.sub in `_clean_text`: the regex
removes exactly the characters outside `\w`, `\s` and the kept punctuation. -/
def keepChar (c : Char) : Bool := pyIsWord c || pyIsSpace c || keptPunct c

/-- One pass of re.sub(r"\s+", " ", text): each maximal run of whitespace
becomes a single space.  The boolean records whether the previous input
character belonged to a whitespace run already replaced. -/
def collapseAux : Bool → PyStr → PyStr
  | _, [] => []
  | prev, c :: cs =>
    if pyIsSpace c then
      if prev then collapseAux true cs else ' ' :: collapseAux true cs
    else c :: collapseAux false cs

/-- re.sub(r"\s+", " ", text). -/
def collapseWs (s : PyStr) : PyStr := collapseAux false s

/-- Python str.strip(): drop whitespace from both ends. -/
def pystrip (s : PyStr) : PyStr :=
  ((s.dropWhile pyIsSpace).reverse.dropWhile pyIsSpace).reverse

/-- Python str.lower(), on the ASCII range exercised by the program. -/
def pyLower (s : PyStr) : PyStr := s.map Char.toLower

/-- DocumentProcessor._clean_text: early return on falsy input, collapse
whitespace, remove characters outside the allow-list, collapse again, strip. -/
def cleanText (text : PyStr) : PyStr :=
  if text = [] then []
  else pystrip (collapseWs (List.filter keepChar (collapseWs text)))

/-- Python's substring test `pat in s`. -/
def containsSub (pat : PyStr) : PyStr → Bool
  | [] => decide (pat = [])
  | c :: cs => decide ((c :: cs).take pat.length = pat) || containsSub pat cs

/-- Worker for Python str.replace: scan left to right, replacing each
non-overlapping occurrence of `pat` by `rep`.  The counter skips the tail
of an occurrence that has just been replaced. -/
def replaceAllAux (pat rep : PyStr) : Nat → PyStr → PyStr
  | _, [] => []
  | Nat.succ k, _ :: cs => replaceAllAux pat rep k cs
  | 0, c :: cs =>
    if pat ≠ [] ∧ (c :: cs).take pat.length = pat then
      rep ++ replaceAllAux pat rep (pat.length - 1) cs
    else
      c :: replaceAllAux pat rep 0 cs

/-- Python str.replace(pat, rep) for a non-empty pattern. -/
def replaceAll (pat rep s : PyStr) : PyStr := replaceAllAux pat rep 0 s

/-- Strict UTF-8 decoding, as performed by Python's utf-8 codec: the state
carries the remaining continuation count, the accumulated code point and
the minimum value admissible for the sequence length (rejecting overlong
forms); surrogates and values beyond U+10FFFF are rejected on completion. -/
def utf8DecodeAux : List Nat → Option (Nat × Nat × Nat) → Option (List Char)
  | [], some _ => none
  | [], none => some []
  | b :: bs, some (1, acc, minV) =>
    if 0x80 ≤ b ∧ b < 0xC0 then
      let v := acc * 64 + (b - 0x80)
      if minV ≤ v ∧ ¬(0xD800 ≤ v ∧ v < 0xE000) ∧ v ≤ 0x10FFFF then
        (utf8DecodeAux bs none).map (Char.ofNat v :: ·)
      else none
    else none
  | b :: bs, some (k + 2, acc, minV) =>
    if 0x80 ≤ b ∧ b < 0xC0 then
      utf8DecodeAux bs (some (k + 1, acc * 64 + (b - 0x80), minV))
    else none
  | _ :: _, some (0, _, _) => none
  | b :: bs, none =>
    if b < 0x80 then (utf8DecodeAux bs none).map (Char.ofNat b :: ·)
    else if b < 0xC0 then none
    else if b < 0xE0 then utf8DecodeAux bs (some (1, b - 0xC0, 0x80))
    else if b < 0xF0 then utf8DecodeAux bs (some (2, b - 0xE0, 0x800))
    else if b < 0xF8 then utf8DecodeAux bs (some (3, b - 0xF0, 0x10000))
    else none

/-- Python bytes.decode("utf-8"): `none` models a UnicodeDecodeError. -/
def utf8Decode (bs : List Nat) : Option (List Char) := utf8DecodeAux bs none

/-- Python bytes.decode("latin-1"): total, each byte maps to the code point
of the same value. -/
def latin1Decode (bs : List Nat) : List Char := bs.map Char.ofNat

/-- External parsing libraries, modelled as pure functions of the file's
bytes: PyPDF2 page extraction (list of per-page texts, empty string for a
page without text), python-docx parsing (paragraph texts and the cell texts
of each table, grouped by row), and pytesseract OCR.  An `Except` error
carries the Python exception's message. -/
structure ExtLibs where
  pdfParse : List Nat → Except PyStr (List PyStr)
  wordParse : List Nat → Except PyStr (List PyStr × List (List (List PyStr)))
  ocr : List Nat → Except PyStr PyStr

namespace DocumentProcessor

/-- The supported_formats set of DocumentProcessor. -/
def supported_formats : List PyStr :=
  [pyOf ".txt", pyOf ".pdf", pyOf ".docx", pyOf ".doc",
   pyOf ".png", pyOf ".jpg", pyOf ".jpeg"]

/-- DocumentProcessor._process_txt on the bytes of a successfully opened
file: decode as UTF-8, and on a UnicodeDecodeError fall back to Latin-1
(which never fails); both branches clean the text. -/
def process_txt (bs : List Nat) : PyStr :=
  match utf8Decode bs with
  | some content => cleanText content
  | none => cleanText (latin1Decode bs)

/-- The page loop of _process_pdf: concatenate the non-empty per-page
texts, each followed by a newline. -/
def pdfConcat (pages : List PyStr) : PyStr :=
  pages.foldl
    (fun acc extracted =>
      if extracted ≠ [] then acc ++ extracted ++ [Char.ofNat 10] else acc) []

/-- DocumentProcessor._process_pdf: an exception from opening or parsing
gives the bracketed PDF error; otherwise the non-empty per-page texts are
concatenated newline-separated, cleaned when non-empty, and an empty
concatenation gives the no-text marker. -/
def process_pdf (libs : ExtLibs) (file : Except PyStr (List Nat)) : PyStr :=
  match file with
  | .error e => pyOf "[Error reading PDF: " ++ e ++ pyOf "]"
  | .ok bs =>
    match libs.pdfParse bs with
    | .error e => pyOf "[Error reading PDF: " ++ e ++ pyOf "]"
    | .ok pages =>
      if pdfConcat pages ≠ [] then cleanText (pdfConcat pages)
      else pyOf "[No text extracted from PDF]"

/-- The paragraph and table loops of _process_word: paragraph texts
newline-terminated, then for each table every cell text followed by a
space, with one newline per table. -/
def wordConcat (paras : List PyStr) (tables : List (List (List PyStr))) : PyStr :=
  tables.foldl
    (fun acc table =>
      (table.foldl (fun acc2 row =>
        row.foldl (fun acc3 cell => acc3 ++ cell ++ [' ']) acc2) acc)
      ++ [Char.ofNat 10])
    (paras.foldl (fun acc p => acc ++ p ++ [Char.ofNat 10]) [])

/-- DocumentProcessor._process_word: the concatenation is cleaned when
non-empty, else the no-text marker; a parsing exception gives the
bracketed Word error. -/
def process_word (libs : ExtLibs) (file : Except PyStr (List Nat)) : PyStr :=
  match file with
  | .error e => pyOf "[Error reading Word document: " ++ e ++ pyOf "]"
  | .ok bs =>
    match libs.wordParse bs with
    | .error e => pyOf "[Error reading Word document: " ++ e ++ pyOf "]"
    | .ok (paras, tables) =>
      if wordConcat paras tables ≠ [] then cleanText (wordConcat paras tables)
      else pyOf "[No text extracted from Word file]"

/-- DocumentProcessor._process_image: OCR text is cleaned, an empty cleaned
result gives the no-text marker; an exception whose message mentions a
missing tesseract gives the dedicated marker, any other exception the
bracketed image error. -/
def process_image (libs : ExtLibs) (file : Except PyStr (List Nat)) : PyStr :=
  match file with
  | .error e =>
    if containsSub (pyOf "tesseract is not installed") (pyLower e)
        || containsSub (pyOf "not found") (pyLower e) then
      pyOf "[OCR unavailable: Tesseract not found. Install Tesseract or set TESSERACT_CMD]"
    else pyOf "[Error reading image: " ++ e ++ pyOf "]"
  | .ok bs =>
    match libs.ocr bs with
    | .error e =>
      if containsSub (pyOf "tesseract is not installed") (pyLower e)
          || containsSub (pyOf "not found") (pyLower e) then
        pyOf "[OCR unavailable: Tesseract not found. Install Tesseract or set TESSERACT_CMD]"
      else pyOf "[Error reading image: " ++ e ++ pyOf "]"
    | .ok content =>
      if cleanText content ≠ [] then cleanText content
      else pyOf "[No text detected in image]"

/-- DocumentProcessor.process_document.  The extension is the value of
os.path.splitext on the file path (an external call), lowered by the
source before dispatch; `file` is the outcome of opening and reading the
file, whose non-Unicode exceptions are caught by the method's outer
handler on the .txt path and by the per-format handlers elsewhere. -/
def process_document (libs : ExtLibs) (ext0 : PyStr) (file : Except PyStr (List Nat)) : PyStr :=
  let file_extension := pyLower ext0
  if file_extension = pyOf ".txt" then
    match file with
    | .ok bs => process_txt bs
    | .error e => pyOf "[File processing error: " ++ e ++ pyOf "]"
  else if file_extension = pyOf ".pdf" then process_pdf libs file
  else if file_extension = pyOf ".docx" ∨ file_extension = pyOf ".doc" then
    process_word libs file
  else if file_extension = pyOf ".png" ∨ file_extension = pyOf ".jpg"
      ∨ file_extension = pyOf ".jpeg" then
    process_image libs file
  else pyOf "[Unsupported file format: " ++ file_extension ++ pyOf "]"

end DocumentProcessor

/-- One conversation turn of st.session_state.messages and of the payload
sent to the completion endpoint. -/
structure Turn where
  role : String
  content : PyStr
deriving DecidableEq

/-- The document-context block built by get_groq_response when the
document mapping is non-empty: a header followed, per document in
insertion order, by a dashed filename line and the first 1000 characters
of its content (or the no-extractable-text marker when the content is
empty), each snippet suffixed by an ellipsis and newline. -/
def doc_context (docs : List (PyStr × PyStr)) : PyStr :=
  if docs = [] then []
  else docs.foldl
    (fun acc fc =>
      acc ++ pyOf "\n--- " ++ fc.1 ++ pyOf " ---\n"
        ++ (if fc.2 ≠ [] then fc.2.take 1000 else pyOf "[No extractable text]")
        ++ pyOf "...\n")
    (pyOf "\n\n**Available Documents:**\n")

/-- The system instruction assembled by get_groq_response, with the
document-context block spliced in when it is non-empty. -/
def system_msg (docs : List (PyStr × PyStr)) : PyStr :=
  pyOf "You are LectureBuddies, an AI chatbot designed for education. Answer clearly, summarize effectively, and explain concepts step by step."
  ++ (if doc_context docs ≠ [] then pyOf " Available Documents: " ++ doc_context docs else [])
  ++ pyOf "\n\nGuidelines:\n📚 Education-focused\n📝 Summarization expert\n🎯 Clarity first (simple language, then details)\n✅ Confidence + accuracy\nBreak down topics step-by-step, use examples, and stay professional yet supportive."

/-- The message sequence get_groq_response submits: a copy of the stored
history, the system turn inserted at index 0, and the current user input
appended last. -/
def build_messages (docs : List (PyStr × PyStr)) (history : List Turn)
    (user_input : PyStr) : List Turn :=
  let messages := history.map (fun m => Turn.mk m.role m.content)
  (Turn.mk "system" (system_msg docs) :: messages) ++ [Turn.mk "user" user_input]

/-- Outcome of the single HTTP POST to the completion endpoint: a response
with its status code, the optionally present choices-message-content field
and the raw body text, or one of the exceptions caught by
get_groq_response. -/
inductive GroqOutcome where
  | http (status : Nat) (choiceContent : Option PyStr) (body : PyStr)
  | timeout
  | requestError (msg : PyStr)
  | otherError (msg : PyStr)
deriving DecidableEq

/-- Reply of get_groq_response for a missing or blank API key. -/
def missingKeyMsg : PyStr :=
  pyOf "⚠️ Missing API key. Please set GROQ_API_KEY in your .env file."

/-- Reply of get_groq_response for a 200 response without content. -/
def noResponseMsg : PyStr := pyOf "⚠️ No response received."

/-- Reply of get_groq_response for a 401 response. -/
def invalidKeyMsg : PyStr :=
  pyOf "❌ Invalid API key. Please check GROQ_API_KEY in your .env file."

/-- Reply of get_groq_response for a 429 response. -/
def rateLimitMsg : PyStr :=
  pyOf "⏳ Too many requests. Please slow down and retry shortly."

/-- Reply of get_groq_response for a request timeout. -/
def timedOutMsg : PyStr := pyOf "⏳ Request timed out. Please retry."

/-- The reply string of get_groq_response: the blank-key guard, then the
status-code mapping of the single request's outcome; every exception is
converted to a reply string, and no retry exists in the source. -/
def get_groq_response (api_key : PyStr) (outcome : GroqOutcome) : PyStr :=
  if api_key = [] ∨ pystrip api_key = [] then missingKeyMsg
  else
    match outcome with
    | .http status choiceContent body =>
      if status = 200 then
        match choiceContent with
        | some c => c
        | none => noResponseMsg
      else if status = 401 then invalidKeyMsg
      else if status = 429 then rateLimitMsg
      else pyOf "⚠️ API Error " ++ (toString status).data ++ pyOf ": " ++ body
    | .timeout => timedOutMsg
    | .requestError e => pyOf "🌐 Network error: " ++ e
    | .otherError e => pyOf "⚠️ Unexpected error: " ++ e

/-- The file-details record appended to st.session_state.uploaded_files. -/
structure FileDetails where
  filename : PyStr
  filetype : PyStr
  filesize : Nat
deriving DecidableEq

/-- st.session_state: the conversation turns, the uploaded-file records and
the document-contents mapping (a dict with insertion order, embedded as an
association list). -/
structure SessionState where
  messages : List Turn
  uploaded_files : List FileDetails
  document_contents : List (PyStr × PyStr)
deriving DecidableEq

/-- The replacement text spliced by inject_file_content for one document:
its content when non-blank, else the per-file no-text marker, truncated to
1000 characters and wrapped in the extracted-content parenthesis. -/
def extractedSnippet (content : PyStr) : PyStr :=
  let extracted := if pystrip content ≠ [] then content else pyOf "[No text extracted from this file]"
  pyOf "(Extracted content: " ++ extracted.take 1000 ++ pyOf "...)"

/-- inject_file_content: iterate the document mapping in insertion order;
whenever the lowered filename occurs in the lowered current message, every
exact occurrence of the filename is replaced by the extracted-content
snippet. -/
def inject_file_content (docs : List (PyStr × PyStr)) (user_message : PyStr) : PyStr :=
  docs.foldl
    (fun msg fc =>
      if containsSub (pyLower fc.1) (pyLower msg) then
        replaceAll fc.1 (extractedSnippet fc.2) msg
      else msg)
    user_message

/-- The module-level process_document of the app: save the upload to the
temp directory (`save` is the outcome of that external write, whose
exception is caught by the function's handler), extract through
DocumentProcessor, and replace a blank extraction by the bracketed
no-text marker. -/
def app_process_document (libs : ExtLibs) (ext : PyStr)
    (file : Except PyStr (List Nat)) (save : Except PyStr Unit) : PyStr :=
  match save with
  | .error e => pyOf "[File processing error: " ++ e ++ pyOf "]"
  | .ok _ =>
    if pystrip (DocumentProcessor.process_document libs ext file) ≠ [] then
      DocumentProcessor.process_document libs ext file
    else pyOf "[No text extracted]"

/-- The Clear Chat button handler: st.session_state.messages.clear(). -/
def clear_chat (s : SessionState) : SessionState := { s with messages := [] }

/-- The sidebar upload handler for a file not yet in the mapping: store the
extraction under the filename, then append the file-details record. -/
def upload_step (s : SessionState) (name ftype : PyStr) (fsize : Nat)
    (libs : ExtLibs) (ext : PyStr) (file : Except PyStr (List Nat))
    (save : Except PyStr Unit) : SessionState :=
  { s with
    document_contents :=
      s.document_contents ++ [(name, app_process_document libs ext file save)],
    uploaded_files := s.uploaded_files ++ [FileDetails.mk name ftype fsize] }

/-- The per-file delete button: pop index i from uploaded_files and pop
that record's filename from document_contents. -/
def delete_step (s : SessionState) (i : Nat) : SessionState :=
  match s.uploaded_files[i]? with
  | none => s
  | some fd =>
    { s with
      uploaded_files := s.uploaded_files.eraseIdx i,
      document_contents :=
        s.document_contents.eraseP (fun p => decide (p.1 = fd.filename)) }

/-- The chat-input handler: under the non-blank guard, the injected text is
computed from the stripped input, the stripped original is appended to the
history, the payload is built from the updated history with the injected
text as current user turn, and the reply is appended.  Returns the new
state and the submitted payload. -/
def chat_input_step (s : SessionState) (user_input api_key : PyStr)
    (outcome : GroqOutcome) : SessionState × List Turn :=
  if user_input ≠ [] ∧ pystrip user_input ≠ [] then
    let final_input := inject_file_content s.document_contents (pystrip user_input)
    let s1 := { s with messages := s.messages ++ [Turn.mk "user" (pystrip user_input)] }
    let sent := build_messages s1.document_contents s1.messages final_input
    let reply := get_groq_response api_key outcome
    ({ s1 with messages := s1.messages ++ [Turn.mk "assistant" reply] }, sent)
  else (s, [])

/-- One quick-action preset button: append the preset prompt and the
endpoint's reply. -/
def preset_step (s : SessionState) (prompt api_key : PyStr)
    (outcome : GroqOutcome) : SessionState :=
  { s with messages :=
      s.messages ++ [Turn.mk "user" prompt,
        Turn.mk "assistant" (get_groq_response api_key outcome)] }

/-- The session states reachable from init_session_state through the
handlers of the page: initial empty state, Clear Chat, an upload of a file
whose name is not yet a key of the mapping, a per-file delete, the
chat-input handler, and a preset button (shown only on an empty
conversation). -/
inductive Reach : SessionState → Prop where
  | init : Reach (SessionState.mk [] [] [])
  | clear {s : SessionState} : Reach s → Reach (clear_chat s)
  | upload {s : SessionState} (name ftype : PyStr) (fsize : Nat) (libs : ExtLibs)
      (ext : PyStr) (file : Except PyStr (List Nat)) (save : Except PyStr Unit) :
      Reach s → name ∉ s.document_contents.map Prod.fst →
      Reach (upload_step s name ftype fsize libs ext file save)
  | deleteFile {s : SessionState} (i : Nat) : Reach s → Reach (delete_step s i)
  | chat {s : SessionState} (user_input api_key : PyStr) (outcome : GroqOutcome) :
      Reach s → Reach (chat_input_step s user_input api_key outcome).1
  | preset {s : SessionState} (prompt api_key : PyStr) (outcome : GroqOutcome) :
      Reach s → s.messages = [] → Reach (preset_step s prompt api_key outcome)

/-- A concrete environment of external libraries whose parsers succeed with
empty results, used to evaluate the model at concrete inputs. -/
def libs0 : ExtLibs :=
  ExtLibs.mk (fun _ => .ok []) (fun _ => .ok ([], [])) (fun _ => .ok [])

/-- Stripping the empty string gives the empty string. -/
lemma pystrip_nil : pystrip [] = [] := rfl

/-- A concatenation whose first part is non-empty is non-empty. -/
lemma append3_ne_nil {a : PyStr} (ha : a ≠ []) (b c : PyStr) : a ++ b ++ c ≠ [] := by
  intro h
  rw [List.append_eq_nil, List.append_eq_nil] at h
  exact ha h.1.1

/-- Dispatch of process_document at the .txt extension. -/
lemma pd_txt (libs : ExtLibs) (file : Except PyStr (List Nat)) :
    DocumentProcessor.process_document libs (pyOf ".txt") file
      = match file with
        | .ok bs => DocumentProcessor.process_txt bs
        | .error e => pyOf "[File processing error: " ++ e ++ pyOf "]" := rfl

/-- Dispatch of process_document at the .pdf extension. -/
lemma pd_pdf (libs : ExtLibs) (file : Except PyStr (List Nat)) :
    DocumentProcessor.process_document libs (pyOf ".pdf") file
      = DocumentProcessor.process_pdf libs file := rfl

/-- Dispatch of process_document at the .docx extension. -/
lemma pd_docx (libs : ExtLibs) (file : Except PyStr (List Nat)) :
    DocumentProcessor.process_document libs (pyOf ".docx") file
      = DocumentProcessor.process_word libs file := rfl

/-- Dispatch of process_document at the .doc extension. -/
lemma pd_doc (libs : ExtLibs) (file : Except PyStr (List Nat)) :
    DocumentProcessor.process_document libs (pyOf ".doc") file
      = DocumentProcessor.process_word libs file := rfl

/-- Dispatch of process_document at the .png extension. -/
lemma pd_png (libs : ExtLibs) (file : Except PyStr (List Nat)) :
    DocumentProcessor.process_document libs (pyOf ".png") file
      = DocumentProcessor.process_image libs file := rfl

/-- Dispatch of process_document at the .jpg extension. -/
lemma pd_jpg (libs : ExtLibs) (file : Except PyStr (List Nat)) :
    DocumentProcessor.process_document libs (pyOf ".jpg") file
      = DocumentProcessor.process_image libs file := rfl

/-- Dispatch of process_document at the .jpeg extension. -/
lemma pd_jpeg (libs : ExtLibs) (file : Except PyStr (List Nat)) :
    DocumentProcessor.process_document libs (pyOf ".jpeg") file
      = DocumentProcessor.process_image libs file := rfl

/-- The payload equation of get_groq_response: a copy of the history,
system turn first, current user input last. -/
lemma build_messages_eq (docs : List (PyStr × PyStr)) (history : List Turn) (u : PyStr) :
    build_messages docs history u
      = Turn.mk "system" (system_msg docs) :: (history ++ [Turn.mk "user" u]) := by
  show (Turn.mk "system" (system_msg docs) :: history.map (fun m => Turn.mk m.role m.content))
      ++ [Turn.mk "user" u] = _
  rw [show (fun m : Turn => Turn.mk m.role m.content) = id from rfl, List.map_id]
  rfl

/-- The payload of get_groq_response ends with the current user turn. -/
lemma build_messages_getLast (docs : List (PyStr × PyStr)) (history : List Turn) (u : PyStr) :
    (build_messages docs history u).getLast? = some (Turn.mk "user" u) := by
  rw [build_messages_eq, ← List.cons_append]
  exact List.getLast?_concat _

/-- C3: for every session state and user input, the message sequence
submitted to the completion endpoint has the system turn at index 0, then
all prior history turns in their original order, and the current user turn
as the last element. -/
theorem build_messages_order (docs : List (PyStr × PyStr)) (history : List Turn) (u : PyStr) :
    build_messages docs history u
      = Turn.mk "system" (system_msg docs) :: (history ++ [Turn.mk "user" u]) :=
  build_messages_eq docs history u

/-- C4: a 401 response yields the fixed invalid-API-key message, a 429 the
fixed rate-limit message, a timeout the fixed timeout message; the three
messages are pairwise distinct.  Every outcome is mapped to a reply string
by the single total dispatch of get_groq_response — no retry exists and no
failure escapes as an exception. -/
theorem get_groq_response_error_mapping (api_key : PyStr) (hk : pystrip api_key ≠ []) :
    (∀ c b, get_groq_response api_key (.http 401 c b) = invalidKeyMsg)
    ∧ (∀ c b, get_groq_response api_key (.http 429 c b) = rateLimitMsg)
    ∧ get_groq_response api_key .timeout = timedOutMsg
    ∧ invalidKeyMsg ≠ rateLimitMsg
    ∧ invalidKeyMsg ≠ timedOutMsg
    ∧ rateLimitMsg ≠ timedOutMsg := by
  have hne : ¬(api_key = [] ∨ pystrip api_key = []) := by
    rintro (rfl | h2)
    · exact hk rfl
    · exact hk h2
  refine ⟨fun c b => ?_, fun c b => ?_, ?_, by decide, by decide, by decide⟩
  all_goals simp [get_groq_response, hne]

/-- Witness for C4 at a concrete non-blank key. -/
theorem get_groq_response_error_mapping_witness :
    get_groq_response (pyOf "k") (.http 401 none []) = invalidKeyMsg
    ∧ get_groq_response (pyOf "k") .timeout = timedOutMsg :=
  ⟨(get_groq_response_error_mapping (pyOf "k") (by decide)).1 none [],
   (get_groq_response_error_mapping (pyOf "k") (by decide)).2.2.1⟩

/-- C5: the Clear Chat handler empties the conversation and leaves the
uploaded-file records and the document-contents mapping unchanged. -/
theorem clear_chat_frame (s : SessionState) :
    (clear_chat s).messages = []
    ∧ (clear_chat s).document_contents = s.document_contents
    ∧ (clear_chat s).uploaded_files = s.uploaded_files :=
  ⟨rfl, rfl, rfl⟩

/-- C7: extraction is deterministic in the file's contents — two
extractions of the same unmodified file (same bytes, same external-library
behaviour) return identical strings. -/
theorem process_document_deterministic (libs : ExtLibs) (ext : PyStr)
    (f1 f2 : Except PyStr (List Nat)) (h : f1 = f2) :
    DocumentProcessor.process_document libs ext f1
      = DocumentProcessor.process_document libs ext f2 := by
  rw [h]

/-- Witness for C7 at a concrete file. -/
theorem process_document_deterministic_witness :
    DocumentProcessor.process_document libs0 (pyOf ".txt") (.ok [0x68])
      = DocumentProcessor.process_document libs0 (pyOf ".txt") (.ok [0x68]) :=
  process_document_deterministic libs0 (pyOf ".txt") _ _ rfl

/-- The chat-input handler leaves the document mapping unchanged. -/
lemma chat_input_docs (s : SessionState) (u k : PyStr) (o : GroqOutcome) :
    (chat_input_step s u k o).1.document_contents = s.document_contents := by
  unfold chat_input_step
  split <;> rfl

/-- C10: the turn appended to the stored history carries the original
stripped user text, while the payload submitted to the endpoint ends with
the injected version — injection affects only the string sent to the
model. -/
theorem chat_input_preserves_original_text (s : SessionState) (u api_key : PyStr)
    (o : GroqOutcome) (h : pystrip u ≠ []) :
    (chat_input_step s u api_key o).1.messages
      = s.messages ++ [Turn.mk "user" (pystrip u),
          Turn.mk "assistant" (get_groq_response api_key o)]
    ∧ (chat_input_step s u api_key o).2.getLast?
      = some (Turn.mk "user" (inject_file_content s.document_contents (pystrip u))) := by
  have hu : u ≠ [] := fun he => h (by rw [he]; exact pystrip_nil)
  constructor
  · simp [chat_input_step, hu, h, List.append_assoc]
  · have h2 : (chat_input_step s u api_key o).2
        = build_messages s.document_contents
            (s.messages ++ [Turn.mk "user" (pystrip u)])
            (inject_file_content s.document_contents (pystrip u)) := by
      simp [chat_input_step, hu, h]
    rw [h2, build_messages_getLast]

/-- Witness for C10 at a concrete state and input. -/
theorem chat_input_preserves_original_text_witness :
    (chat_input_step (SessionState.mk [] [] []) (pyOf " hi ") (pyOf "k") GroqOutcome.timeout).1.messages
      = (SessionState.mk [] [] []).messages
        ++ [Turn.mk "user" (pystrip (pyOf " hi ")),
            Turn.mk "assistant" (get_groq_response (pyOf "k") GroqOutcome.timeout)]
    ∧ (chat_input_step (SessionState.mk [] [] []) (pyOf " hi ") (pyOf "k") GroqOutcome.timeout).2.getLast?
      = some (Turn.mk "user"
          (inject_file_content (SessionState.mk [] [] []).document_contents (pystrip (pyOf " hi ")))) :=
  chat_input_preserves_original_text (SessionState.mk [] [] []) (pyOf " hi ") (pyOf "k")
    GroqOutcome.timeout (by decide)

/-- C1 counterexample: .txt is a supported extension and an empty .txt file
extracts to the empty string — not a non-empty string and not a bracketed
diagnostic, refuting the claim as stated. -/
theorem process_document_empty_txt_counterexample :
    pyOf ".txt" ∈ DocumentProcessor.supported_formats
    ∧ DocumentProcessor.process_document libs0 (pyOf ".txt") (.ok []) = [] := by
  decide

/-- Every error marker of the form "[" ++ prefix-text ++ message ++ "]" is
a non-empty string that starts with an opening bracket and ends with a
closing one. -/
lemma marker_shape (a b : PyStr) (ha : a.head? = some '[') :
    a ++ b ++ pyOf "]" ≠ []
    ∧ (a ++ b ++ pyOf "]").head? = some '['
    ∧ (a ++ b ++ pyOf "]").getLast? = some ']' := by
  have hne : a ≠ [] := by
    intro h
    rw [h] at ha
    simp at ha
  refine ⟨append3_ne_nil hne _ _, ?_, ?_⟩
  · rw [List.append_assoc, List.head?_append_of_ne_nil _ hne]
    exact ha
  · rw [List.getLast?_append_of_ne_nil _ (by decide : pyOf "]" ≠ ([] : PyStr))]
    decide

/-- C1 (amended): for every supported extension and file, process_document
returns a string and never raises — the result is either a non-empty
bracketed diagnostic marker (a string starting with an opening bracket and
ending with a closing one) or the cleaned extracted content (an output of
the cleaning pass), which may be the empty string (for example, for an
empty .txt file). -/
theorem process_document_diag_or_cleaned (libs : ExtLibs) (ext : PyStr)
    (file : Except PyStr (List Nat)) (h : ext ∈ DocumentProcessor.supported_formats) :
    (DocumentProcessor.process_document libs ext file ≠ []
      ∧ (DocumentProcessor.process_document libs ext file).head? = some '['
      ∧ (DocumentProcessor.process_document libs ext file).getLast? = some ']')
    ∨ ∃ raw, DocumentProcessor.process_document libs ext file = cleanText raw := by
  simp only [DocumentProcessor.supported_formats, List.mem_cons,
    List.not_mem_nil, or_false] at h
  have himage : ∀ (g : Except PyStr (List Nat)),
      (DocumentProcessor.process_image libs g ≠ []
        ∧ (DocumentProcessor.process_image libs g).head? = some '['
        ∧ (DocumentProcessor.process_image libs g).getLast? = some ']')
      ∨ ∃ raw, DocumentProcessor.process_image libs g = cleanText raw := by
    intro g
    unfold DocumentProcessor.process_image
    split
    · split_ifs
      · exact Or.inl (by decide)
      · exact Or.inl (marker_shape _ _ (by decide))
    · split
      · split_ifs
        · exact Or.inl (by decide)
        · exact Or.inl (marker_shape _ _ (by decide))
      · split_ifs with hc
        · exact Or.inr ⟨_, rfl⟩
        · exact Or.inl (by decide)
  have hword : ∀ (g : Except PyStr (List Nat)),
      (DocumentProcessor.process_word libs g ≠ []
        ∧ (DocumentProcessor.process_word libs g).head? = some '['
        ∧ (DocumentProcessor.process_word libs g).getLast? = some ']')
      ∨ ∃ raw, DocumentProcessor.process_word libs g = cleanText raw := by
    intro g
    unfold DocumentProcessor.process_word
    split
    · exact Or.inl (marker_shape _ _ (by decide))
    · split
      · exact Or.inl (marker_shape _ _ (by decide))
      · split_ifs with hc
        · exact Or.inr ⟨_, rfl⟩
        · exact Or.inl (by decide)
  rcases h with rfl | rfl | rfl | rfl | rfl | rfl | rfl
  · rw [pd_txt]
    split
    · unfold DocumentProcessor.process_txt
      split
      · exact Or.inr ⟨_, rfl⟩
      · exact Or.inr ⟨_, rfl⟩
    · exact Or.inl (marker_shape _ _ (by decide))
  · rw [pd_pdf]
    unfold DocumentProcessor.process_pdf
    split
    · exact Or.inl (marker_shape _ _ (by decide))
    · split
      · exact Or.inl (marker_shape _ _ (by decide))
      · split_ifs with hc
        · exact Or.inr ⟨_, rfl⟩
        · exact Or.inl (by decide)
  · rw [pd_docx]; exact hword file
  · rw [pd_doc]; exact hword file
  · rw [pd_png]; exact himage file
  · rw [pd_jpg]; exact himage file
  · rw [pd_jpeg]; exact himage file

/-- Witness for C1 at the .txt extension and an empty file. -/
theorem process_document_diag_or_cleaned_witness :
    (DocumentProcessor.process_document libs0 (pyOf ".txt") (.ok []) ≠ []
      ∧ (DocumentProcessor.process_document libs0 (pyOf ".txt") (.ok [])).head? = some '['
      ∧ (DocumentProcessor.process_document libs0 (pyOf ".txt") (.ok [])).getLast? = some ']')
    ∨ ∃ raw, DocumentProcessor.process_document libs0 (pyOf ".txt") (.ok []) = cleanText raw :=
  process_document_diag_or_cleaned libs0 (pyOf ".txt") (.ok []) (by decide)

/-- C8 counterexample: the byte 0x80 is invalid UTF-8, its Latin-1 decoding
is a non-empty string, yet extraction returns the empty string — the
character is dropped by the cleaning pass, refuting "no data loss". -/
theorem process_txt_latin1_data_loss_counterexample :
    utf8Decode [0x80] = none
    ∧ latin1Decode [0x80] ≠ []
    ∧ DocumentProcessor.process_document libs0 (pyOf ".txt") (.ok [0x80]) = [] := by
  decide

/-- C8 (amended): for every .txt file whose bytes are not valid UTF-8,
extraction falls back to Latin-1 decoding and returns the cleaned Latin-1
content with no error marker; the cleaning pass may still drop characters
outside its allow-list and normalize whitespace, so byte-for-byte
preservation is not guaranteed. -/
theorem process_txt_latin1_fallback (libs : ExtLibs) (bs : List Nat)
    (h : utf8Decode bs = none) :
    DocumentProcessor.process_document libs (pyOf ".txt") (.ok bs)
      = cleanText (latin1Decode bs) := by
  rw [pd_txt]
  show DocumentProcessor.process_txt bs = cleanText (latin1Decode bs)
  unfold DocumentProcessor.process_txt
  rw [h]

/-- Witness for C8 at the invalid-UTF-8 byte 0x80. -/
theorem process_txt_latin1_fallback_witness :
    DocumentProcessor.process_document libs0 (pyOf ".txt") (.ok [0x80])
      = cleanText (latin1Decode [0x80]) :=
  process_txt_latin1_fallback libs0 [0x80] (by decide)

/-- The value stored for an upload is never the empty string: either the
non-blank extraction itself or one of the bracketed markers. -/
lemma app_process_document_ne_nil (libs : ExtLibs) (ext : PyStr)
    (file : Except PyStr (List Nat)) (save : Except PyStr Unit) :
    app_process_document libs ext file save ≠ [] := by
  unfold app_process_document
  split
  · exact append3_ne_nil (by decide) _ _
  · split_ifs with hc
    · intro hnil
      apply hc
      rw [hnil]
      exact pystrip_nil
    · decide

/-- C6: in every reachable session state, every value stored in the
document-contents mapping is a non-empty string — a blank extraction is
replaced by the bracketed no-text marker before storage, and the other
handlers only preserve or remove entries. -/
theorem reach_document_contents_nonempty {s : SessionState} (hs : Reach s) :
    ∀ name content, (name, content) ∈ s.document_contents → content ≠ [] := by
  induction hs with
  | init =>
    intro n c hc
    simp at hc
  | clear _ ih =>
    intro n c hc
    exact ih n c hc
  | upload name ftype fsize libs ext file save _ _ ih =>
    intro n c hc
    rcases List.mem_append.mp hc with hmem | hmem
    · exact ih n c hmem
    · have : (n, c) = (name, app_process_document libs ext file save) := by
        simpa using hmem
      rw [Prod.mk.injEq] at this
      rw [this.2]
      exact app_process_document_ne_nil libs ext file save
  | deleteFile i _ ih =>
    intro n c hc
    unfold delete_step at hc
    split at hc
    · exact ih n c hc
    · exact ih n c (List.Sublist.subset (List.eraseP_sublist _) hc)
  | chat u k o _ ih =>
    intro n c hc
    rw [chat_input_docs] at hc
    exact ih n c hc
  | preset p k o _ _ ih =>
    intro n c hc
    exact ih n c hc

/-- Witness for C6: after uploading an empty .txt file into the initial
state, the stored value is the bracketed no-text marker, which is
non-empty. -/
theorem reach_document_contents_nonempty_witness :
    pyOf "[No text extracted]" ≠ ([] : PyStr) :=
  reach_document_contents_nonempty
    (Reach.upload (pyOf "a.txt") (pyOf "text/plain") 0 libs0 (pyOf ".txt")
      (.ok []) (.ok ()) Reach.init (by decide))
    (pyOf "a.txt") (pyOf "[No text extracted]") (by decide)

/-- The boolean substring test agrees with list infixes. -/
lemma containsSub_iff (pat : PyStr) : ∀ s : PyStr, containsSub pat s = true ↔ pat <:+: s := by
  intro s
  induction s with
  | nil =>
    simp [containsSub, List.infix_nil]
  | cons c cs ih =>
    simp only [containsSub, Bool.or_eq_true, decide_eq_true_eq, ih]
    rw [List.infix_cons_iff]
    constructor
    · rintro (h | h)
      · exact Or.inl (List.prefix_iff_eq_take.mpr h.symm)
      · exact Or.inr h
    · rintro (h | h)
      · exact Or.inl (List.prefix_iff_eq_take.mp h).symm
      · exact Or.inr h

/-- A substring occurrence survives mapping both strings, in particular
lowering them. -/
lemma containsSub_lower_mono {pat s : PyStr} (h : containsSub pat s = true) :
    containsSub (pyLower pat) (pyLower s) = true := by
  rw [containsSub_iff] at h ⊢
  exact List.IsInfix.map Char.toLower h

/-- A substring occurrence survives consing a character in front. -/
lemma containsSub_cons {pat : PyStr} (c : Char) {s : PyStr}
    (h : containsSub pat s = true) : containsSub pat (c :: s) = true := by
  simp [containsSub, h]

/-- A string occurs in any string it starts. -/
lemma containsSub_append_left (p t : PyStr) : containsSub p (p ++ t) = true := by
  rw [containsSub_iff]
  exact (List.prefix_append p t).isInfix

/-- When the pattern occurs in the scanned string, str.replace places the
replacement text into the result. -/
lemma replaceAll_containsSub {pat rep : PyStr} (hp : pat ≠ []) :
    ∀ s : PyStr, containsSub pat s = true →
      containsSub rep (replaceAll pat rep s) = true := by
  intro s
  unfold replaceAll
  induction s with
  | nil =>
    intro h
    exact absurd (by simpa [containsSub] using h) hp
  | cons c cs ih =>
    intro h
    have e1 : replaceAllAux pat rep 0 (c :: cs)
        = if pat ≠ [] ∧ (c :: cs).take pat.length = pat then
            rep ++ replaceAllAux pat rep (pat.length - 1) cs
          else c :: replaceAllAux pat rep 0 cs := rfl
    by_cases hm : (c :: cs).take pat.length = pat
    · rw [e1, if_pos ⟨hp, hm⟩]
      exact containsSub_append_left _ _
    · have hrec : containsSub pat cs = true := by
        have halt : (c :: cs).take pat.length = pat ∨ containsSub pat cs = true := by
          simpa [containsSub] using h
        rcases halt with hdec | hdec
        · exact absurd hdec hm
        · exact hdec
      rw [e1, if_neg (by intro hcon; exact hm hcon.2)]
      exact containsSub_cons c (ih hrec)

/-- C2 counterexample: the file "A.txt" is mentioned as "a.txt" in the user
message — the case-insensitive occurrence check fires, but the
case-sensitive str.replace finds nothing, so the message is returned
unchanged and no extracted-content substitution appears, refuting the
claim as stated. -/
theorem inject_file_content_case_mismatch_counterexample :
    containsSub (pyLower (pyOf "A.txt")) (pyLower (pyOf "see a.txt")) = true
    ∧ inject_file_content [(pyOf "A.txt", pyOf "hello")] (pyOf "see a.txt")
        = pyOf "see a.txt"
    ∧ containsSub (pyOf "(Extracted content:") (pyOf "see a.txt") = false := by
  decide

/-- C2 (amended): for a store holding one document whose non-empty filename
occurs exactly (case-sensitively) in the latest user message, the rendered
message contains the "(Extracted content: ...)" substitution built from
the first 1000 characters of that document's extracted text; a document
whose lowered filename does not occur in the lowered message leaves the
message unchanged.  A filename occurring only in a different letter-case
is detected but not replaced, leaving the literal mention standing. -/
theorem inject_file_content_exact_match (fname content msg : PyStr) (hf : fname ≠ []) :
    (containsSub fname msg = true →
      containsSub (extractedSnippet content)
        (inject_file_content [(fname, content)] msg) = true)
    ∧ (containsSub (pyLower fname) (pyLower msg) = false →
      inject_file_content [(fname, content)] msg = msg) := by
  constructor
  · intro hocc
    have hcond : containsSub (pyLower fname) (pyLower msg) = true :=
      containsSub_lower_mono hocc
    have hinj : inject_file_content [(fname, content)] msg
        = replaceAll fname (extractedSnippet content) msg := by
      simp [inject_file_content, hcond]
    rw [hinj]
    exact replaceAll_containsSub hf msg hocc
  · intro hcond
    simp [inject_file_content, hcond]

/-- Witness for C2 at a concrete store and message with an exact-case
mention. -/
theorem inject_file_content_exact_match_witness :
    containsSub (extractedSnippet (pyOf "hello"))
      (inject_file_content [(pyOf "a.txt", pyOf "hello")] (pyOf "see a.txt")) = true :=
  (inject_file_content_exact_match (pyOf "a.txt") (pyOf "hello") (pyOf "see a.txt")
    (by decide)).1 (by decide)

/-- The head of a dropWhile result never satisfies the dropped predicate. -/
lemma head?_dropWhile_neg (p : Char → Bool) (l : PyStr) (c : Char)
    (hc : (l.dropWhile p).head? = some c) : p c = false := by
  have h := List.head?_dropWhile_not p l
  rw [hc] at h
  exact h

/-- A character of a collapsed string is either the replacement space or a
non-whitespace character of the input. -/
lemma collapseAux_chars : ∀ (b : Bool) (s : PyStr) (c : Char),
    c ∈ collapseAux b s → c = ' ' ∨ (pyIsSpace c = false ∧ c ∈ s) := by
  intro b s
  induction s generalizing b with
  | nil =>
    intro c hc
    simp [collapseAux] at hc
  | cons a t ih =>
    intro c hc
    simp only [collapseAux] at hc
    split_ifs at hc with h1 h2
    · rcases ih true c hc with h | ⟨hs, hm⟩
      exacts [Or.inl h, Or.inr ⟨hs, List.mem_cons_of_mem a hm⟩]
    · rcases List.mem_cons.mp hc with rfl | hc2
      · exact Or.inl rfl
      · rcases ih true c hc2 with h | ⟨hs, hm⟩
        exacts [Or.inl h, Or.inr ⟨hs, List.mem_cons_of_mem a hm⟩]
    · rcases List.mem_cons.mp hc with rfl | hc2
      · exact Or.inr ⟨by simpa using h1, List.mem_cons_self c t⟩
      · rcases ih false c hc2 with h | ⟨hs, hm⟩
        exacts [Or.inl h, Or.inr ⟨hs, List.mem_cons_of_mem a hm⟩]

/-- After a whitespace run has just been collapsed, the next emitted
character is not whitespace. -/
lemma head?_collapseAux_true : ∀ (s : PyStr) (c : Char),
    (collapseAux true s).head? = some c → pyIsSpace c = false := by
  intro s
  induction s with
  | nil =>
    intro c hc
    simp [collapseAux] at hc
  | cons a t ih =>
    intro c hc
    simp only [collapseAux, if_true] at hc
    split_ifs at hc with h1
    · exact ih c hc
    · rw [List.head?_cons, Option.some.injEq] at hc
      rw [← hc]
      simpa using h1

/-- A collapsed string never holds two adjacent whitespace characters. -/
lemma collapseAux_chain : ∀ (b : Bool) (s : PyStr),
    List.Chain' (fun x y => ¬(pyIsSpace x = true ∧ pyIsSpace y = true)) (collapseAux b s) := by
  intro b s
  induction s generalizing b with
  | nil =>
    simp [collapseAux]
  | cons a t ih =>
    simp only [collapseAux]
    split_ifs with h1 h2
    · exact ih true
    · rw [List.chain'_cons']
      refine ⟨?_, ih true⟩
      intro y hy hcon
      have hns : pyIsSpace y = false := head?_collapseAux_true t y hy
      rw [hns] at hcon
      exact Bool.false_ne_true hcon.2
    · rw [List.chain'_cons']
      refine ⟨?_, ih false⟩
      intro y hy hcon
      exact h1 hcon.1

/-- Chains survive restriction to an infix. -/
lemma chain'_of_isInfix {R : Char → Char → Prop} {l l' : PyStr}
    (h : List.Chain' R l) (hinf : l' <:+: l) : List.Chain' R l' := by
  obtain ⟨t1, t2, rfl⟩ := hinf
  have h1 := (List.chain'_append.mp h).1
  exact (List.chain'_append.mp h1).2.1

/-- Stripping yields an infix of the original string. -/
lemma pystrip_isInfix (s : PyStr) : pystrip s <:+: s := by
  unfold pystrip
  have h1 : (s.dropWhile pyIsSpace) <:+ s := List.dropWhile_suffix pyIsSpace
  have h2 : ((s.dropWhile pyIsSpace).reverse.dropWhile pyIsSpace)
      <:+ (s.dropWhile pyIsSpace).reverse := List.dropWhile_suffix pyIsSpace
  have h3 : ((s.dropWhile pyIsSpace).reverse.dropWhile pyIsSpace).reverse
      <+: (s.dropWhile pyIsSpace) := by
    have h4 := List.reverse_prefix.mpr h2
    rwa [List.reverse_reverse] at h4
  exact h3.isInfix.trans h1.isInfix

/-- The first character of a stripped string is not whitespace. -/
lemma pystrip_head (s : PyStr) : ∀ c, (pystrip s).head? = some c → pyIsSpace c = false := by
  intro c hc
  unfold pystrip at hc
  rw [List.head?_reverse] at hc
  have hBne : (s.dropWhile pyIsSpace).reverse.dropWhile pyIsSpace ≠ [] := by
    intro hB
    rw [hB] at hc
    simp at hc
  obtain ⟨t, ht⟩ := List.dropWhile_suffix (l := (s.dropWhile pyIsSpace).reverse) pyIsSpace
  have h2 : ((s.dropWhile pyIsSpace).reverse).getLast? = some c := by
    rw [← ht, List.getLast?_append_of_ne_nil _ hBne]
    exact hc
  rw [List.getLast?_reverse] at h2
  exact head?_dropWhile_neg pyIsSpace s c h2

/-- The last character of a stripped string is not whitespace. -/
lemma pystrip_getLast (s : PyStr) : ∀ c, (pystrip s).getLast? = some c → pyIsSpace c = false := by
  intro c hc
  unfold pystrip at hc
  rw [List.getLast?_reverse] at hc
  exact head?_dropWhile_neg pyIsSpace _ c hc

/-- C9: for every input string, _clean_text produces a string whose
characters all belong to the allow-list (word characters, whitespace and
the kept punctuation), in which every whitespace character is the single
space and no two adjacent characters are whitespace (so every maximal
whitespace run is one space), and whose first and last characters are not
whitespace. -/
theorem cleanText_normalized (s : PyStr) :
    (∀ c ∈ cleanText s, keepChar c = true)
    ∧ (∀ c ∈ cleanText s, pyIsSpace c = true → c = ' ')
    ∧ List.Chain' (fun x y => ¬(pyIsSpace x = true ∧ pyIsSpace y = true)) (cleanText s)
    ∧ (∀ c, (cleanText s).head? = some c → pyIsSpace c = false)
    ∧ (∀ c, (cleanText s).getLast? = some c → pyIsSpace c = false) := by
  by_cases hs : s = []
  · subst hs
    refine ⟨?_, ?_, ?_, ?_, ?_⟩ <;> simp [cleanText]
  · have hclean : cleanText s
        = pystrip (collapseWs (List.filter keepChar (collapseWs s))) := by
      unfold cleanText
      rw [if_neg hs]
    have hsub : ∀ c ∈ cleanText s,
        c ∈ collapseWs (List.filter keepChar (collapseWs s)) := by
      intro c hc
      rw [hclean] at hc
      exact (pystrip_isInfix _).subset hc
    have hMchars : ∀ c ∈ collapseWs (List.filter keepChar (collapseWs s)),
        c = ' ' ∨ (pyIsSpace c = false ∧ keepChar c = true) := by
      intro c hc
      rcases collapseAux_chars false _ c hc with h | ⟨h1, h2⟩
      · exact Or.inl h
      · exact Or.inr ⟨h1, (List.mem_filter.mp h2).2⟩
    refine ⟨?_, ?_, ?_, ?_, ?_⟩
    · intro c hc
      rcases hMchars c (hsub c hc) with rfl | ⟨_, h2⟩
      · decide
      · exact h2
    · intro c hc hsp
      rcases hMchars c (hsub c hc) with rfl | ⟨h1, _⟩
      · rfl
      · rw [h1] at hsp
        exact absurd hsp (by simp)
    · rw [hclean]
      exact chain'_of_isInfix (collapseAux_chain false _) (pystrip_isInfix _)
    · rw [hclean]
      exact pystrip_head _
    · rw [hclean]
      exact pystrip_getLast _
